import Mathlib

/-!
Verification of the staged revision pipeline (LangGraph workflows in
`Full_Code.py`, `fast_api.py`, `code_review.py`).

Text is modelled as `List Char`.  The completion client is an oracle
`Str → Except ε Str`: an `Except.error` models a `ServiceError` raised by
`llm.invoke`, which the Python code never catches.  The two workflow
variants (API-design and code-generation) are embedded in the namespaces
`ApiDesign` and `CodeGen`.
-/

/-- Text, modelled as a list of characters. -/
abbrev Str := List Char

/-- Python `str.lower()` (per-character lowering). -/
def lowerStr (s : Str) : Str := s.map Char.toLower

/-- Python `str.strip()`: drop whitespace from both ends. -/
def stripWs (s : Str) : Str :=
  ((s.dropWhile Char.isWhitespace).reverse.dropWhile Char.isWhitespace).reverse

/-- The literal substring tested by both review classifiers. -/
def passPat : Str := "pass".toList

/-- The verdict string returned on a successful review. -/
def passTok : Str := "Pass".toList

/-- The verdict string returned on a failed review. -/
def failTok : Str := "Fail".toList

namespace ApiDesign

/-- Verdict classifier of `peer_review_design` (Full_Code.py line 30):
`"Pass" if "pass" in msg.content.lower() else "Fail"`. -/
def classify (content : Str) : Str :=
  if passPat <:+: lowerStr content then passTok else failTok

end ApiDesign

namespace CodeGen

/-- Verdict classifier of `peer_review` (fast_api.py lines 67-68):
`review_result = msg.content.strip().lower()`, then
`"Pass" if "pass" in review_result else "Fail"`. -/
def classify (content : Str) : Str :=
  if passPat <:+: lowerStr (stripWs content) then passTok else failTok

end CodeGen

/-- The stage functions executed during one invocation.  `review` is the
conditional-edge function attached to the generation node; the other three
are graph nodes. -/
inductive Stage
  | generate
  | review
  | improve
  | finalize
deriving DecidableEq

namespace ApiDesign

/-- The `State` TypedDict of Full_Code.py.  At runtime only a subset of the
keys is present, so every field is an `Option`. -/
structure State where
  idea : Option Str
  draft_design : Option Str
  improved_design : Option Str
  final_doc : Option Str
deriving DecidableEq

/-- `chain.invoke({"idea": idea})` starts from a state holding only the
input field. -/
def init (idea : Str) : State := ⟨some idea, none, none, none⟩

/-- Prompt built by `generate_api_design` (Full_Code.py line 25). -/
def generatePrompt (idea : Str) : Str :=
  "Generate a REST API design for: ".toList ++ idea ++
    ". Include endpoints, request/response formats.".toList

/-- Prompt built by `peer_review_design` (Full_Code.py line 29). -/
def reviewPrompt (draft : Str) : Str :=
  "Check if this API design follows REST best practices:\n".toList ++ draft ++
    "\nReturn \x27Pass\x27 or \x27Fail\x27.".toList

/-- Prompt built by `improve_design` (Full_Code.py line 33); it embeds the
draft produced by the generation stage. -/
def improvePrompt (draft : Str) : Str :=
  "Improve this API design by adding authentication, error handling, pagination if needed:\n".toList
    ++ draft

/-- Prompt built by `manager_review` (Full_Code.py line 37); it embeds the
improved design, not the original draft. -/
def finalPrompt (improved : Str) : Str :=
  "Convert this API design into a clean OpenAPI-style documentation with clear formatting:\n".toList
    ++ improved

/-- Node `generate_api_design`: one completion call, writes `draft_design`. -/
def generate_api_design {ε : Type} (llm : Str → Except ε Str) (s : State) :
    Except ε State :=
  match llm (generatePrompt (s.idea.getD [])) with
  | .error e => .error e
  | .ok msg => .ok { s with draft_design := some msg }

/-- Conditional-edge function `peer_review_design`: one completion call,
classified into a verdict string. -/
def peer_review_design {ε : Type} (llm : Str → Except ε Str) (s : State) :
    Except ε Str :=
  match llm (reviewPrompt (s.draft_design.getD [])) with
  | .error e => .error e
  | .ok msg => .ok (classify msg)

/-- Node `improve_design`: one completion call, writes `improved_design`. -/
def improve_design {ε : Type} (llm : Str → Except ε Str) (s : State) :
    Except ε State :=
  match llm (improvePrompt (s.draft_design.getD [])) with
  | .error e => .error e
  | .ok msg => .ok { s with improved_design := some msg }

/-- Node `manager_review`: one completion call on the improved design,
writes `final_doc`. -/
def manager_review {ε : Type} (llm : Str → Except ε Str) (s : State) :
    Except ε State :=
  match llm (finalPrompt (s.improved_design.getD [])) with
  | .error e => .error e
  | .ok msg => .ok { s with final_doc := some msg }

/-- Targets of the conditional edge out of the generation node. -/
inductive NextNode
  | improve_node
  | end_node
deriving DecidableEq

/-- The conditional edge map
`{"Fail": "improve_design", "Pass": END}` (Full_Code.py line 47). -/
def condEdges : List (Str × NextNode) :=
  [(failTok, NextNode.improve_node), (passTok, NextNode.end_node)]

/-- Result of one invocation: final state, the stage functions executed in
order, and the state after each executed graph node (`hist`). -/
structure Run where
  final : State
  visited : List Stage
  hist : List State
deriving DecidableEq

/-- One invocation of the compiled graph: START → generate_api_design,
then the conditional edge chosen by `peer_review_design` through
`condEdges`, then the unconditional edges improve_design → manager_review
→ END (Full_Code.py lines 46-50).  `none` would mean the conditional edge
map has no entry for the verdict. -/
def invoke {ε : Type} (llm : Str → Except ε Str) (idea : Str) :
    Except ε (Option Run) :=
  match generate_api_design llm (init idea) with
  | .error e => .error e
  | .ok s1 =>
    match peer_review_design llm s1 with
    | .error e => .error e
    | .ok v =>
      match List.lookup v condEdges with
      | none => .ok none
      | some NextNode.end_node =>
        .ok (some ⟨s1, [Stage.generate, Stage.review], [init idea, s1]⟩)
      | some NextNode.improve_node =>
        match improve_design llm s1 with
        | .error e => .error e
        | .ok s2 =>
          match manager_review llm s2 with
          | .error e => .error e
          | .ok s3 =>
            .ok (some ⟨s3,
              [Stage.generate, Stage.review, Stage.improve, Stage.finalize],
              [init idea, s1, s2, s3]⟩)

/-- Once a field is set it keeps its value in the next state. -/
def preservesFields (s t : State) : Prop :=
  (s.idea.isSome = true → t.idea = s.idea) ∧
  (s.draft_design.isSome = true → t.draft_design = s.draft_design) ∧
  (s.improved_design.isSome = true → t.improved_design = s.improved_design) ∧
  (s.final_doc.isSome = true → t.final_doc = s.final_doc)

/-- A single step writes exactly one schema field, previously unset, and
changes nothing else. -/
def writesOne (s t : State) : Prop :=
  (t = { s with draft_design := t.draft_design } ∧ s.draft_design = none) ∨
  (t = { s with improved_design := t.improved_design } ∧ s.improved_design = none) ∨
  (t = { s with final_doc := t.final_doc } ∧ s.final_doc = none)

end ApiDesign

namespace CodeGen

/-- The `State` TypedDict of fast_api.py / code_review.py. -/
structure State where
  topic : Option Str
  code : Option Str
  improved_code : Option Str
  final_code : Option Str
deriving DecidableEq

/-- `chain.invoke({"topic": topic})` starts from a state holding only the
input field. -/
def init (topic : Str) : State := ⟨some topic, none, none, none⟩

/-- Prompt built by `generate_code` (fast_api.py line 50). -/
def generatePrompt (topic : Str) : Str :=
  "Generate a python code with proper indentation about ".toList ++ topic

/-- Prompt built by `peer_review` (fast_api.py lines 55-65); the code under
review sits between two fixed instruction blocks. -/
def reviewPrompt (code : Str) : Str :=
  "\n    You are a code reviewer. The user wrote the following Python code:\n\n    ".toList
    ++ code ++
    "\n\n    Please do the following:\n    1. Verify if the code is syntactically correct and runs without errors.\n    2. Test it on edge cases and typical test cases.\n    3. Check if it handles invalid inputs gracefully (if applicable).\n    4. Finally, return only one word: \"Pass\" if the code is correct and robust, otherwise \"Fail\".\n    ".toList

/-- Prompt built by `improve_code` (fast_api.py lines 72-82); it embeds the
stage-1 `code` field. -/
def improvePrompt (code : Str) : Str :=
  "\n    Here is the current Python code:\n\n    ".toList ++ code ++
    "\n\n    Improve this code by:\n    1. Checking if there are more efficient Data Structures and Algorithms that can be applied.\n    2. Improving time and space complexity if possible.\n    3. Keeping readability and maintainability in mind.\n    4. Returning only the improved Python code with proper indentation and docstrings.\n    ".toList

/-- Prompt built by `manager_review` (fast_api.py lines 88-98); it embeds
`improved_code`, not the original `code`. -/
def managerPrompt (improved : Str) : Str :=
  "\n    You are acting as a senior engineering manager reviewing this Python code:\n\n    ".toList
    ++ improved ++
    "\n\n    Please do the following:\n    1. Verify correctness and robustness of the code.\n    2. Ensure it passes edge cases and potential failure scenarios.\n    3. Check whether it uses efficient Data Structures / Algorithms where relevant.\n    4. Ensure code readability and Pythonic style.\n    ".toList

/-- Node `generate_code`: one completion call, writes `code`. -/
def generate_code {ε : Type} (llm : Str → Except ε Str) (s : State) :
    Except ε State :=
  match llm (generatePrompt (s.topic.getD [])) with
  | .error e => .error e
  | .ok msg => .ok { s with code := some msg }

/-- Conditional-edge function `peer_review`: one completion call, stripped
and classified into a verdict string. -/
def peer_review {ε : Type} (llm : Str → Except ε Str) (s : State) :
    Except ε Str :=
  match llm (reviewPrompt (s.code.getD [])) with
  | .error e => .error e
  | .ok msg => .ok (classify msg)

/-- Node `improve_code`: one completion call, writes `improved_code`. -/
def improve_code {ε : Type} (llm : Str → Except ε Str) (s : State) :
    Except ε State :=
  match llm (improvePrompt (s.code.getD [])) with
  | .error e => .error e
  | .ok msg => .ok { s with improved_code := some msg }

/-- Node `manager_review`: one completion call on the improved code, writes
the stripped response into `final_code` (fast_api.py lines 99-101). -/
def manager_review {ε : Type} (llm : Str → Except ε Str) (s : State) :
    Except ε State :=
  match llm (managerPrompt (s.improved_code.getD [])) with
  | .error e => .error e
  | .ok msg => .ok { s with final_code := some (stripWs msg) }

/-- Targets of the conditional edge out of the generation node. -/
inductive NextNode
  | improve_node
  | end_node
deriving DecidableEq

/-- The conditional edge map
`{"Fail": "improve_code", "Pass": END}` (fast_api.py line 113). -/
def condEdges : List (Str × NextNode) :=
  [(failTok, NextNode.improve_node), (passTok, NextNode.end_node)]

/-- Result of one invocation, as in `ApiDesign.Run`. -/
structure Run where
  final : State
  visited : List Stage
  hist : List State
deriving DecidableEq

/-- One invocation of the compiled graph of fast_api.py lines 112-117. -/
def invoke {ε : Type} (llm : Str → Except ε Str) (topic : Str) :
    Except ε (Option Run) :=
  match generate_code llm (init topic) with
  | .error e => .error e
  | .ok s1 =>
    match peer_review llm s1 with
    | .error e => .error e
    | .ok v =>
      match List.lookup v condEdges with
      | none => .ok none
      | some NextNode.end_node =>
        .ok (some ⟨s1, [Stage.generate, Stage.review], [init topic, s1]⟩)
      | some NextNode.improve_node =>
        match improve_code llm s1 with
        | .error e => .error e
        | .ok s2 =>
          match manager_review llm s2 with
          | .error e => .error e
          | .ok s3 =>
            .ok (some ⟨s3,
              [Stage.generate, Stage.review, Stage.improve, Stage.finalize],
              [init topic, s1, s2, s3]⟩)

/-- Once a field is set it keeps its value in the next state. -/
def preservesFields (s t : State) : Prop :=
  (s.topic.isSome = true → t.topic = s.topic) ∧
  (s.code.isSome = true → t.code = s.code) ∧
  (s.improved_code.isSome = true → t.improved_code = s.improved_code) ∧
  (s.final_code.isSome = true → t.final_code = s.final_code)

/-- A single step writes exactly one schema field, previously unset, and
changes nothing else. -/
def writesOne (s t : State) : Prop :=
  (t = { s with code := t.code } ∧ s.code = none) ∨
  (t = { s with improved_code := t.improved_code } ∧ s.improved_code = none) ∨
  (t = { s with final_code := t.final_code } ∧ s.final_code = none)

end CodeGen

/-- A completion client that always answers (no `ServiceError`). -/
def pureClient (llm : Str → Str) : Str → Except Unit Str :=
  fun prompt => Except.ok (llm prompt)

/-! ### The coloring helper of code_review.py (`colorize_python_code`) -/

/-- ANSI marker for plain code lines. -/
def GREEN : Str := "\x1b[92m".toList

/-- ANSI marker for comment and docstring lines. -/
def CYAN : Str := "\x1b[96m".toList

/-- ANSI reset marker appended to every emitted line. -/
def RESET : Str := "\x1b[0m".toList

/-- The double-quote block-string marker. -/
def tqMark1 : Str := "\"\"\"".toList

/-- The single-quote block-string marker. -/
def tqMark2 : Str := "\x27\x27\x27".toList

/-- Classification of one line by `colorize_python_code`: the first two
branches of its if-chain emit string style, the third comment style, the
last plain code style. -/
inductive LineKind
  | stringKind
  | commentKind
  | codeKind
deriving DecidableEq

/-- `stripped.startswith('"""') or stripped.startswith("'''")`
(code_review.py line 49). -/
def startsTq (stripped : Str) : Bool :=
  tqMark1.isPrefixOf stripped || tqMark2.isPrefixOf stripped

/-- One iteration of the loop of code_review.py lines 47-61: classify the
line and compute the next `in_docstring` flag. -/
def classifyLine (in_docstring : Bool) (line : Str) : LineKind × Bool :=
  let stripped := stripWs line
  if startsTq stripped then
    if in_docstring = false then (LineKind.stringKind, true)
    else (LineKind.stringKind, false)
  else if in_docstring then (LineKind.stringKind, in_docstring)
  else if ['#'].isPrefixOf stripped then (LineKind.commentKind, in_docstring)
  else (LineKind.codeKind, in_docstring)

/-- `f"{COLOR}{line}{RESET}"`: the emitted line for each branch. -/
def wrapLine (k : LineKind) (line : Str) : Str :=
  match k with
  | LineKind.stringKind => CYAN ++ line ++ RESET
  | LineKind.commentKind => CYAN ++ line ++ RESET
  | LineKind.codeKind => GREEN ++ line ++ RESET

/-- The loop of code_review.py lines 47-61 over the split lines. -/
def colorizeLines (in_docstring : Bool) : List Str → List Str
  | [] => []
  | line :: rest =>
    wrapLine (classifyLine in_docstring line).1 line ::
      colorizeLines (classifyLine in_docstring line).2 rest

/-- The branch taken for each line (same recursion as `colorizeLines`,
kinds only). -/
def classifyLines (in_docstring : Bool) : List Str → List LineKind
  | [] => []
  | line :: rest =>
    (classifyLine in_docstring line).1 ::
      classifyLines (classifyLine in_docstring line).2 rest

/-- Python `str.splitlines()` restricted to `'\n'` breaks: a trailing
newline produces no extra empty line. -/
def splitlines (s : Str) : List Str :=
  if s = [] then []
  else if s.getLast? = some '\n' then (s.splitOn '\n').dropLast
  else s.splitOn '\n'

/-- `colorize_python_code` (code_review.py lines 38-63): split, color each
line, and rejoin with newlines. -/
def colorize_python_code (code : Str) : Str :=
  List.intercalate ['\n'] (colorizeLines false (splitlines code))

/-- Strip one leading 5-char color marker and the trailing 4-char reset
marker from an emitted line. -/
def unwrapLine (o : Str) : Str :=
  (o.drop 5).take ((o.drop 5).length - 4)

/-- The six-line input of the spec's coloring scenario. -/
def scenarioLines : List Str :=
  ["\"\"\"doc\"\"\"".toList, "x=1".toList, "# c".toList,
    "\"\"\"".toList, "y=2".toList, "\"\"\"".toList]

/-! ### The cleaning helper of fast_api.py (`clean_python_code`) -/

/-- Python `str.strip(c)` for a single strip character. -/
def stripChar (c : Char) (s : Str) : Str :=
  ((s.dropWhile (· = c)).reverse.dropWhile (· = c)).reverse

/-- The substring removed by `clean_python_code`. -/
def pythonPat : Str := "python".toList

/-- Python `str.replace("python", "")`, fuelled to stay structural: scan
left to right and drop every (non-overlapping) occurrence. -/
def removePythonAux : Nat → Str → Str
  | _, [] => []
  | 0, s => s
  | Nat.succ n, c :: rest =>
    if pythonPat.isPrefixOf (c :: rest) then removePythonAux n (List.drop 5 rest)
    else c :: removePythonAux n rest

/-- Python `raw.replace("python", "")` (enough fuel for the whole scan). -/
def removePython (s : Str) : Str := removePythonAux s.length s

/-- `clean_python_code` (fast_api.py lines 41-43):
`raw_code.strip("\x60").replace("python", "").strip()`. -/
def clean_python_code (raw_code : Str) : Str :=
  stripWs (removePython (stripChar '\x60' raw_code))

/-! ### Concrete inputs used by witnesses -/

/-- A completion client whose every response lacks the substring "pass". -/
def failingClient : Str → Str := fun _ => "needs work".toList

/-- A completion client whose every response contains "Pass". -/
def passingClient : Str → Str := fun _ => "Pass".toList

/-- A concrete input for witness invocations. -/
def wIdea : Str := "todo".toList

/-- A completion client that always raises (modelled `ServiceError` 7). -/
def errClient : Str → Except Nat Str := fun _ => Except.error 7

/-- A line whose trimmed text contains a triple-quote marker not at the
start. -/
def midMarkerLine : Str := "x = \"\"\" y".toList

/-- The run produced by `ApiDesign.invoke` under `failingClient`. -/
def wOutD : ApiDesign.Run :=
  ⟨⟨some wIdea, some "needs work".toList, some "needs work".toList, some "needs work".toList⟩,
    [Stage.generate, Stage.review, Stage.improve, Stage.finalize],
    [ApiDesign.init wIdea,
     ⟨some wIdea, some "needs work".toList, none, none⟩,
     ⟨some wIdea, some "needs work".toList, some "needs work".toList, none⟩,
     ⟨some wIdea, some "needs work".toList, some "needs work".toList, some "needs work".toList⟩]⟩

/-- The run produced by `CodeGen.invoke` under `failingClient`. -/
def wOutC : CodeGen.Run :=
  ⟨⟨some wIdea, some "needs work".toList, some "needs work".toList, some "needs work".toList⟩,
    [Stage.generate, Stage.review, Stage.improve, Stage.finalize],
    [CodeGen.init wIdea,
     ⟨some wIdea, some "needs work".toList, none, none⟩,
     ⟨some wIdea, some "needs work".toList, some "needs work".toList, none⟩,
     ⟨some wIdea, some "needs work".toList, some "needs work".toList, some "needs work".toList⟩]⟩

/-! ## Helper lemmas -/

lemma toLower_of_whitespace (c : Char) (h : c.isWhitespace = true) :
    Char.toLower c = c := by
  simp only [Char.isWhitespace, Bool.or_eq_true, decide_eq_true_eq] at h
  rcases h with ((h | h) | h) | h <;> subst h <;> decide

lemma passPat_not_ws : ∀ c ∈ passPat, Char.isWhitespace c = false := by decide

lemma passPat_ne_nil : passPat ≠ [] := by decide

lemma infix_reverse_iff {l₁ l₂ : Str} : l₁ <:+: l₂.reverse ↔ l₁.reverse <:+: l₂ := by
  constructor
  · intro h
    have h2 := List.reverse_infix.mpr h
    rwa [List.reverse_reverse] at h2
  · intro h
    have h2 := List.reverse_infix.mpr h
    rwa [List.reverse_reverse] at h2

lemma infix_map_dropWhile {f : Char → Char} {p : Char → Bool} {pat : Str}
    (hfix : ∀ c, p c = true → f c = c) (hpat : ∀ c ∈ pat, p c = false)
    (hne : pat ≠ []) :
    ∀ {l : Str}, pat <:+: List.map f l → pat <:+: List.map f (List.dropWhile p l) := by
  intro l
  induction l with
  | nil => intro h; simpa using h
  | cons a l ih =>
    intro h
    by_cases hpa : p a = true
    · rw [List.dropWhile_cons, if_pos hpa]
      apply ih
      rw [List.map_cons] at h
      rcases List.infix_cons_iff.mp h with hpre | hinf
      · cases pat with
        | nil => exact absurd rfl hne
        | cons phd ptl =>
          rcases List.cons_prefix_cons.mp hpre with ⟨heq, _⟩
          have hw := hpat phd (List.mem_cons_self _ _)
          rw [heq, hfix a hpa] at hw
          rw [hw] at hpa
          simp at hpa
      · exact hinf
    · rw [List.dropWhile_cons, if_neg hpa]
      rw [List.map_cons] at h
      exact h

lemma stripWs_infix_self (t : Str) : stripWs t <:+: t := by
  unfold stripWs
  have h1 : List.dropWhile Char.isWhitespace t <:+ t := List.dropWhile_suffix _
  have h2 :
      List.dropWhile Char.isWhitespace (List.dropWhile Char.isWhitespace t).reverse <:+
        (List.dropWhile Char.isWhitespace t).reverse := List.dropWhile_suffix _
  have h2r :
      (List.dropWhile Char.isWhitespace
          (List.dropWhile Char.isWhitespace t).reverse).reverse.reverse <:+
        (List.dropWhile Char.isWhitespace t).reverse := by
    rwa [List.reverse_reverse]
  have h3 := List.reverse_suffix.mp h2r
  exact h3.isInfix.trans h1.isInfix

lemma infix_lower_strip (t : Str) :
    (passPat <:+: lowerStr (stripWs t)) ↔ (passPat <:+: lowerStr t) := by
  constructor
  · intro h
    exact h.trans (List.IsInfix.map Char.toLower (stripWs_infix_self t))
  · intro h
    simp only [lowerStr] at h ⊢
    have h1 : passPat <:+: List.map Char.toLower (List.dropWhile Char.isWhitespace t) :=
      infix_map_dropWhile toLower_of_whitespace passPat_not_ws passPat_ne_nil h
    have hpatR : ∀ c ∈ passPat.reverse, Char.isWhitespace c = false := by
      intro c hc
      exact passPat_not_ws c (List.mem_reverse.mp hc)
    have hneR : passPat.reverse ≠ [] := by decide
    have h2 : passPat.reverse <:+:
        List.map Char.toLower (List.dropWhile Char.isWhitespace t).reverse := by
      rw [List.map_reverse]
      exact infix_reverse_iff.mpr (by rwa [List.reverse_reverse])
    have h3 : passPat.reverse <:+:
        List.map Char.toLower
          (List.dropWhile Char.isWhitespace
            (List.dropWhile Char.isWhitespace t).reverse) :=
      infix_map_dropWhile toLower_of_whitespace hpatR hneR h2
    show passPat <:+: List.map Char.toLower (stripWs t)
    unfold stripWs
    rw [List.map_reverse]
    exact infix_reverse_iff.mpr h3

lemma verdict_eq_pass_iff (P : Prop) [Decidable P] :
    ((if P then passTok else failTok) = passTok) ↔ P := by
  by_cases h : P
  · rw [if_pos h]
    exact ⟨fun _ => h, fun _ => rfl⟩
  · rw [if_neg h]
    exact ⟨fun hh => absurd hh (by decide), fun hp => absurd hp h⟩

lemma classifyD_pass_iff (t : Str) :
    ApiDesign.classify t = passTok ↔ passPat <:+: lowerStr t :=
  verdict_eq_pass_iff _

lemma classifyC_pass_iff (t : Str) :
    CodeGen.classify t = passTok ↔ passPat <:+: lowerStr t :=
  (verdict_eq_pass_iff _).trans (infix_lower_strip t)

lemma classifyD_total (t : Str) :
    ApiDesign.classify t = passTok ∨ ApiDesign.classify t = failTok := by
  unfold ApiDesign.classify
  by_cases h : passPat <:+: lowerStr t
  · exact Or.inl (if_pos h)
  · exact Or.inr (if_neg h)

lemma classifyC_total (t : Str) :
    CodeGen.classify t = passTok ∨ CodeGen.classify t = failTok := by
  unfold CodeGen.classify
  by_cases h : passPat <:+: lowerStr (stripWs t)
  · exact Or.inl (if_pos h)
  · exact Or.inr (if_neg h)

lemma classifyD_ne_pass (t : Str) (h : ApiDesign.classify t ≠ passTok) :
    ApiDesign.classify t = failTok :=
  (classifyD_total t).resolve_left h

lemma classifyC_ne_pass (t : Str) (h : CodeGen.classify t ≠ passTok) :
    CodeGen.classify t = failTok :=
  (classifyC_total t).resolve_left h

lemma lookup_pass_D :
    List.lookup passTok ApiDesign.condEdges = some ApiDesign.NextNode.end_node := by
  decide

lemma lookup_fail_D :
    List.lookup failTok ApiDesign.condEdges = some ApiDesign.NextNode.improve_node := by
  decide

lemma lookup_pass_C :
    List.lookup passTok CodeGen.condEdges = some CodeGen.NextNode.end_node := by
  decide

lemma lookup_fail_C :
    List.lookup failTok CodeGen.condEdges = some CodeGen.NextNode.improve_node := by
  decide

lemma invokeD_pure_eq (llm : Str → Str) (idea : Str) :
    ApiDesign.invoke (pureClient llm) idea = Except.ok (some (
      if ApiDesign.classify (llm (ApiDesign.reviewPrompt (llm (ApiDesign.generatePrompt idea)))) = passTok
      then ⟨⟨some idea, some (llm (ApiDesign.generatePrompt idea)), none, none⟩,
            [Stage.generate, Stage.review],
            [ApiDesign.init idea,
             ⟨some idea, some (llm (ApiDesign.generatePrompt idea)), none, none⟩]⟩
      else ⟨⟨some idea, some (llm (ApiDesign.generatePrompt idea)),
              some (llm (ApiDesign.improvePrompt (llm (ApiDesign.generatePrompt idea)))),
              some (llm (ApiDesign.finalPrompt (llm (ApiDesign.improvePrompt (llm (ApiDesign.generatePrompt idea))))))⟩,
            [Stage.generate, Stage.review, Stage.improve, Stage.finalize],
            [ApiDesign.init idea,
             ⟨some idea, some (llm (ApiDesign.generatePrompt idea)), none, none⟩,
             ⟨some idea, some (llm (ApiDesign.generatePrompt idea)),
              some (llm (ApiDesign.improvePrompt (llm (ApiDesign.generatePrompt idea)))), none⟩,
             ⟨some idea, some (llm (ApiDesign.generatePrompt idea)),
              some (llm (ApiDesign.improvePrompt (llm (ApiDesign.generatePrompt idea)))),
              some (llm (ApiDesign.finalPrompt (llm (ApiDesign.improvePrompt (llm (ApiDesign.generatePrompt idea))))))⟩]⟩)) := by
  rcases classifyD_total (llm (ApiDesign.reviewPrompt (llm (ApiDesign.generatePrompt idea)))) with h | h
  · rw [if_pos h]
    simp only [ApiDesign.invoke, ApiDesign.generate_api_design, ApiDesign.peer_review_design,
      pureClient, ApiDesign.init, Option.getD_some, h, lookup_pass_D]
  · rw [if_neg (by rw [h]; decide)]
    simp only [ApiDesign.invoke, ApiDesign.generate_api_design, ApiDesign.peer_review_design,
      ApiDesign.improve_design, ApiDesign.manager_review,
      pureClient, ApiDesign.init, Option.getD_some, h, lookup_fail_D]

lemma invokeC_pure_eq (llm : Str → Str) (topic : Str) :
    CodeGen.invoke (pureClient llm) topic = Except.ok (some (
      if CodeGen.classify (llm (CodeGen.reviewPrompt (llm (CodeGen.generatePrompt topic)))) = passTok
      then ⟨⟨some topic, some (llm (CodeGen.generatePrompt topic)), none, none⟩,
            [Stage.generate, Stage.review],
            [CodeGen.init topic,
             ⟨some topic, some (llm (CodeGen.generatePrompt topic)), none, none⟩]⟩
      else ⟨⟨some topic, some (llm (CodeGen.generatePrompt topic)),
              some (llm (CodeGen.improvePrompt (llm (CodeGen.generatePrompt topic)))),
              some (stripWs (llm (CodeGen.managerPrompt (llm (CodeGen.improvePrompt (llm (CodeGen.generatePrompt topic)))))))⟩,
            [Stage.generate, Stage.review, Stage.improve, Stage.finalize],
            [CodeGen.init topic,
             ⟨some topic, some (llm (CodeGen.generatePrompt topic)), none, none⟩,
             ⟨some topic, some (llm (CodeGen.generatePrompt topic)),
              some (llm (CodeGen.improvePrompt (llm (CodeGen.generatePrompt topic)))), none⟩,
             ⟨some topic, some (llm (CodeGen.generatePrompt topic)),
              some (llm (CodeGen.improvePrompt (llm (CodeGen.generatePrompt topic)))),
              some (stripWs (llm (CodeGen.managerPrompt (llm (CodeGen.improvePrompt (llm (CodeGen.generatePrompt topic)))))))⟩]⟩)) := by
  rcases classifyC_total (llm (CodeGen.reviewPrompt (llm (CodeGen.generatePrompt topic)))) with h | h
  · rw [if_pos h]
    simp only [CodeGen.invoke, CodeGen.generate_code, CodeGen.peer_review,
      pureClient, CodeGen.init, Option.getD_some, h, lookup_pass_C]
  · rw [if_neg (by rw [h]; decide)]
    simp only [CodeGen.invoke, CodeGen.generate_code, CodeGen.peer_review,
      CodeGen.improve_code, CodeGen.manager_review,
      pureClient, CodeGen.init, Option.getD_some, h, lookup_fail_C]

lemma wrapLine_or (k : LineKind) (l : Str) :
    wrapLine k l = CYAN ++ l ++ RESET ∨ wrapLine k l = GREEN ++ l ++ RESET := by
  cases k <;> simp [wrapLine]

lemma unwrap_marker (pre : Str) (hpre : pre.length = 5) (l : Str) :
    unwrapLine (pre ++ l ++ RESET) = l := by
  unfold unwrapLine
  rw [List.append_assoc, ← hpre, List.drop_left]
  have hlen : (l ++ RESET).length - 4 = l.length := by simp [RESET]
  rw [hlen]
  exact List.take_left l RESET

lemma unwrap_wrapLine (k : LineKind) (l : Str) : unwrapLine (wrapLine k l) = l := by
  cases k
  · exact unwrap_marker CYAN (by decide) l
  · exact unwrap_marker CYAN (by decide) l
  · exact unwrap_marker GREEN (by decide) l

lemma removePythonAux_congr : ∀ (n m : Nat) (s : Str), s.length ≤ n → s.length ≤ m →
    removePythonAux n s = removePythonAux m s := by
  intro n
  induction n with
  | zero =>
    intro m s hn _
    have hs : s = [] := List.length_eq_zero.mp (Nat.le_zero.mp hn)
    subst hs
    cases m <;> rfl
  | succ n ih =>
    intro m s hn hm
    cases s with
    | nil => cases m <;> rfl
    | cons c rest =>
      cases m with
      | zero =>
        exact absurd hm (by simp)
      | succ m =>
        simp only [removePythonAux]
        simp only [List.length_cons] at hn hm
        by_cases hp : pythonPat.isPrefixOf (c :: rest) = true
        · rw [if_pos hp, if_pos hp]
          apply ih
          · rw [List.length_drop]
            omega
          · rw [List.length_drop]
            omega
        · rw [if_neg hp, if_neg hp]
          have := ih m rest (by omega) (by omega)
          rw [this]

lemma removePythonHead (b : Str) : removePython (pythonPat ++ b) = removePython b := by
  have hc : pythonPat.isPrefixOf ('p' :: 'y' :: 't' :: 'h' :: 'o' :: 'n' :: b) = true :=
    List.isPrefixOf_iff_prefix.mpr (List.prefix_append pythonPat b)
  unfold removePython
  show removePythonAux ('p' :: 'y' :: 't' :: 'h' :: 'o' :: 'n' :: b).length
      ('p' :: 'y' :: 't' :: 'h' :: 'o' :: 'n' :: b) = removePythonAux b.length b
  have e2 : ('p' :: 'y' :: 't' :: 'h' :: 'o' :: 'n' :: b).length = b.length + 5 + 1 := by
    simp only [List.length_cons]
  rw [e2]
  simp only [removePythonAux]
  rw [if_pos hc]
  show removePythonAux (b.length + 5) b = removePythonAux b.length b
  exact removePythonAux_congr _ _ b (by omega) (le_refl _)

/-! ## Claims -/

/-- C1: for every review-stage response text `t`, both verdict classifiers
return `"Pass"` iff the lower-cased `t` contains the substring `"pass"`;
in particular `"PASS"` and `"Pass, looks fine"` classify as Pass, while
`"This needs work, fail"` and `"Acceptable"` classify as Fail. -/
theorem claim1_classifier_pass_iff :
    (∀ t : Str, ApiDesign.classify t = passTok ↔ passPat <:+: lowerStr t) ∧
    (∀ t : Str, CodeGen.classify t = passTok ↔ passPat <:+: lowerStr t) ∧
    ApiDesign.classify "PASS".toList = passTok ∧
    ApiDesign.classify "Pass, looks fine".toList = passTok ∧
    ApiDesign.classify "This needs work, fail".toList = failTok ∧
    ApiDesign.classify "Acceptable".toList = failTok ∧
    CodeGen.classify "PASS".toList = passTok ∧
    CodeGen.classify "Pass, looks fine".toList = passTok ∧
    CodeGen.classify "This needs work, fail".toList = failTok ∧
    CodeGen.classify "Acceptable".toList = failTok :=
  ⟨classifyD_pass_iff, classifyC_pass_iff, by decide, by decide, by decide, by decide,
   by decide, by decide, by decide, by decide⟩

/-- C2: for every initial input and completion-client behaviour, a Pass
verdict makes the invocation execute exactly Generate and Review and
return a state whose improved/final fields are `none`; a Fail verdict
makes it execute Generate, Review, Improve, Finalize in order and return
a state with all four fields populated.  (Both workflow variants.) -/
theorem claim2_path_coverage :
    (∀ (llm : Str → Str) (idea : Str),
      ApiDesign.invoke (pureClient llm) idea = Except.ok (some (
        if ApiDesign.classify (llm (ApiDesign.reviewPrompt (llm (ApiDesign.generatePrompt idea)))) = passTok
        then ⟨⟨some idea, some (llm (ApiDesign.generatePrompt idea)), none, none⟩,
              [Stage.generate, Stage.review],
              [ApiDesign.init idea,
               ⟨some idea, some (llm (ApiDesign.generatePrompt idea)), none, none⟩]⟩
        else ⟨⟨some idea, some (llm (ApiDesign.generatePrompt idea)),
                some (llm (ApiDesign.improvePrompt (llm (ApiDesign.generatePrompt idea)))),
                some (llm (ApiDesign.finalPrompt (llm (ApiDesign.improvePrompt (llm (ApiDesign.generatePrompt idea))))))⟩,
              [Stage.generate, Stage.review, Stage.improve, Stage.finalize],
              [ApiDesign.init idea,
               ⟨some idea, some (llm (ApiDesign.generatePrompt idea)), none, none⟩,
               ⟨some idea, some (llm (ApiDesign.generatePrompt idea)),
                some (llm (ApiDesign.improvePrompt (llm (ApiDesign.generatePrompt idea)))), none⟩,
               ⟨some idea, some (llm (ApiDesign.generatePrompt idea)),
                some (llm (ApiDesign.improvePrompt (llm (ApiDesign.generatePrompt idea)))),
                some (llm (ApiDesign.finalPrompt (llm (ApiDesign.improvePrompt (llm (ApiDesign.generatePrompt idea))))))⟩]⟩))) ∧
    (∀ (llm : Str → Str) (topic : Str),
      CodeGen.invoke (pureClient llm) topic = Except.ok (some (
        if CodeGen.classify (llm (CodeGen.reviewPrompt (llm (CodeGen.generatePrompt topic)))) = passTok
        then ⟨⟨some topic, some (llm (CodeGen.generatePrompt topic)), none, none⟩,
              [Stage.generate, Stage.review],
              [CodeGen.init topic,
               ⟨some topic, some (llm (CodeGen.generatePrompt topic)), none, none⟩]⟩
        else ⟨⟨some topic, some (llm (CodeGen.generatePrompt topic)),
                some (llm (CodeGen.improvePrompt (llm (CodeGen.generatePrompt topic)))),
                some (stripWs (llm (CodeGen.managerPrompt (llm (CodeGen.improvePrompt (llm (CodeGen.generatePrompt topic)))))))⟩,
              [Stage.generate, Stage.review, Stage.improve, Stage.finalize],
              [CodeGen.init topic,
               ⟨some topic, some (llm (CodeGen.generatePrompt topic)), none, none⟩,
               ⟨some topic, some (llm (CodeGen.generatePrompt topic)),
                some (llm (CodeGen.improvePrompt (llm (CodeGen.generatePrompt topic)))), none⟩,
               ⟨some topic, some (llm (CodeGen.generatePrompt topic)),
                some (llm (CodeGen.improvePrompt (llm (CodeGen.generatePrompt topic)))),
                some (stripWs (llm (CodeGen.managerPrompt (llm (CodeGen.improvePrompt (llm (CodeGen.generatePrompt topic)))))))⟩]⟩))) :=
  ⟨invokeD_pure_eq, invokeC_pure_eq⟩

/-- C3: in every invocation, each state field is written by exactly one
stage and never overwritten (once set, all later states keep its value),
and a step changes nothing outside the single schema field it writes. -/
theorem claim3_write_once :
    (∀ (llm : Str → Str) (idea : Str) (out : ApiDesign.Run),
      ApiDesign.invoke (pureClient llm) idea = Except.ok (some out) →
      out.hist.head? = some (ApiDesign.init idea) ∧
      List.Chain' ApiDesign.preservesFields out.hist ∧
      List.Chain' ApiDesign.writesOne out.hist) ∧
    (∀ (llm : Str → Str) (topic : Str) (out : CodeGen.Run),
      CodeGen.invoke (pureClient llm) topic = Except.ok (some out) →
      out.hist.head? = some (CodeGen.init topic) ∧
      List.Chain' CodeGen.preservesFields out.hist ∧
      List.Chain' CodeGen.writesOne out.hist) := by
  constructor
  · intro llm idea out h
    rw [invokeD_pure_eq] at h
    simp only [Except.ok.injEq, Option.some.injEq] at h
    subst h
    by_cases hc : ApiDesign.classify (llm (ApiDesign.reviewPrompt (llm (ApiDesign.generatePrompt idea)))) = passTok
    · rw [if_pos hc]
      refine ⟨rfl, ?_, ?_⟩
      · simp [List.chain'_cons, ApiDesign.preservesFields, ApiDesign.init]
      · simp only [List.chain'_cons, List.chain'_singleton, and_true]
        exact Or.inl ⟨rfl, rfl⟩
    · rw [if_neg hc]
      refine ⟨rfl, ?_, ?_⟩
      · simp [List.chain'_cons, ApiDesign.preservesFields, ApiDesign.init]
      · simp only [List.chain'_cons, List.chain'_singleton, and_true]
        exact ⟨Or.inl ⟨rfl, rfl⟩, Or.inr (Or.inl ⟨rfl, rfl⟩), Or.inr (Or.inr ⟨rfl, rfl⟩)⟩
  · intro llm topic out h
    rw [invokeC_pure_eq] at h
    simp only [Except.ok.injEq, Option.some.injEq] at h
    subst h
    by_cases hc : CodeGen.classify (llm (CodeGen.reviewPrompt (llm (CodeGen.generatePrompt topic)))) = passTok
    · rw [if_pos hc]
      refine ⟨rfl, ?_, ?_⟩
      · simp [List.chain'_cons, CodeGen.preservesFields, CodeGen.init]
      · simp only [List.chain'_cons, List.chain'_singleton, and_true]
        exact Or.inl ⟨rfl, rfl⟩
    · rw [if_neg hc]
      refine ⟨rfl, ?_, ?_⟩
      · simp [List.chain'_cons, CodeGen.preservesFields, CodeGen.init]
      · simp only [List.chain'_cons, List.chain'_singleton, and_true]
        exact ⟨Or.inl ⟨rfl, rfl⟩, Or.inr (Or.inl ⟨rfl, rfl⟩), Or.inr (Or.inr ⟨rfl, rfl⟩)⟩

/-- Witness for C3: a concrete fail-path run of both variants. -/
theorem claim3_witness :
    (ApiDesign.invoke (pureClient failingClient) wIdea = Except.ok (some wOutD) ∧
      (wOutD.hist.head? = some (ApiDesign.init wIdea) ∧
       List.Chain' ApiDesign.preservesFields wOutD.hist ∧
       List.Chain' ApiDesign.writesOne wOutD.hist)) ∧
    (CodeGen.invoke (pureClient failingClient) wIdea = Except.ok (some wOutC) ∧
      (wOutC.hist.head? = some (CodeGen.init wIdea) ∧
       List.Chain' CodeGen.preservesFields wOutC.hist ∧
       List.Chain' CodeGen.writesOne wOutC.hist)) :=
  ⟨⟨rfl, claim3_write_once.1 failingClient wIdea wOutD rfl⟩,
   ⟨rfl, claim3_write_once.2 failingClient wIdea wOutC rfl⟩⟩

/-- C4 counterexample: on the spec's six-line scenario the code does NOT
produce `[string, code, comment, string, string, string]` — the one-line
docstring `"""doc"""` flips `in_docstring` on, so the following lines are
emitted as string-style until the next triple-quote line. -/
theorem claim4_coloring_counterexample :
    classifyLines false scenarioLines ≠
      [LineKind.stringKind, LineKind.codeKind, LineKind.commentKind,
       LineKind.stringKind, LineKind.stringKind, LineKind.stringKind] := by
  decide

/-- C4 (amended): the per-line rule holds as stated — a trimmed line
starting with a triple-quote marker is string-style and flips the toggle;
inside a block string every line is string-style without toggling;
otherwise a `#`-line is comment-style and anything else code-style — but
the six-line scenario classifies as
`[string, string, string, string, code, string]`. -/
theorem claim4_coloring_amended :
    (∀ (b : Bool) (l : Str), startsTq (stripWs l) = true →
      classifyLine b l = (LineKind.stringKind, !b)) ∧
    (∀ (b : Bool) (l : Str), startsTq (stripWs l) = false → b = true →
      classifyLine b l = (LineKind.stringKind, b)) ∧
    (∀ l : Str, startsTq (stripWs l) = false → ['#'].isPrefixOf (stripWs l) = true →
      classifyLine false l = (LineKind.commentKind, false)) ∧
    (∀ l : Str, startsTq (stripWs l) = false → ['#'].isPrefixOf (stripWs l) = false →
      classifyLine false l = (LineKind.codeKind, false)) ∧
    classifyLines false scenarioLines =
      [LineKind.stringKind, LineKind.stringKind, LineKind.stringKind,
       LineKind.stringKind, LineKind.codeKind, LineKind.stringKind] := by
  refine ⟨?_, ?_, ?_, ?_, by decide⟩
  · intro b l h
    cases b <;> simp [classifyLine, h]
  · intro b l h hb
    subst hb
    simp [classifyLine, h]
  · intro l h hh
    simp [classifyLine, h, hh]
  · intro l h hh
    simp [classifyLine, h, hh]

/-- Witness for C4: the per-line rules applied at concrete lines. -/
theorem claim4_coloring_witness :
    (startsTq (stripWs ("\"\"\"doc\"\"\"".toList)) = true ∧
      classifyLine false ("\"\"\"doc\"\"\"".toList) = (LineKind.stringKind, true)) ∧
    (startsTq (stripWs ("# c".toList)) = false ∧
      ['#'].isPrefixOf (stripWs ("# c".toList)) = true ∧
      classifyLine false ("# c".toList) = (LineKind.commentKind, false)) ∧
    (startsTq (stripWs ("x=1".toList)) = false ∧
      ['#'].isPrefixOf (stripWs ("x=1".toList)) = false ∧
      classifyLine false ("x=1".toList) = (LineKind.codeKind, false)) :=
  ⟨⟨by decide, claim4_coloring_amended.1 false _ (by decide)⟩,
   ⟨by decide, by decide, claim4_coloring_amended.2.2.1 _ (by decide) (by decide)⟩,
   ⟨by decide, by decide, claim4_coloring_amended.2.2.2.1 _ (by decide) (by decide)⟩⟩

/-- C5: on the Fail path the Improve prompt embeds the stage-1 output and
the Finalize prompt embeds the improved field, so the terminal field is
`llm` applied to a prompt built from the improved field (both variants);
moreover each of those prompts contains its embedded field as a
substring. -/
theorem claim5_improve_finalize_dataflow :
    (∀ (llm : Str → Str) (idea : Str),
      ApiDesign.classify (llm (ApiDesign.reviewPrompt (llm (ApiDesign.generatePrompt idea)))) = failTok →
      ∀ out : ApiDesign.Run,
        ApiDesign.invoke (pureClient llm) idea = Except.ok (some out) →
        out.final.draft_design = some (llm (ApiDesign.generatePrompt idea)) ∧
        out.final.improved_design =
          some (llm (ApiDesign.improvePrompt (llm (ApiDesign.generatePrompt idea)))) ∧
        out.final.final_doc =
          some (llm (ApiDesign.finalPrompt
            (llm (ApiDesign.improvePrompt (llm (ApiDesign.generatePrompt idea))))))) ∧
    (∀ (llm : Str → Str) (topic : Str),
      CodeGen.classify (llm (CodeGen.reviewPrompt (llm (CodeGen.generatePrompt topic)))) = failTok →
      ∀ out : CodeGen.Run,
        CodeGen.invoke (pureClient llm) topic = Except.ok (some out) →
        out.final.code = some (llm (CodeGen.generatePrompt topic)) ∧
        out.final.improved_code =
          some (llm (CodeGen.improvePrompt (llm (CodeGen.generatePrompt topic)))) ∧
        out.final.final_code =
          some (stripWs (llm (CodeGen.managerPrompt
            (llm (CodeGen.improvePrompt (llm (CodeGen.generatePrompt topic)))))))) ∧
    (∀ d : Str, d <:+: ApiDesign.improvePrompt d) ∧
    (∀ i : Str, i <:+: ApiDesign.finalPrompt i) ∧
    (∀ d : Str, d <:+: CodeGen.improvePrompt d) ∧
    (∀ i : Str, i <:+: CodeGen.managerPrompt i) := by
  refine ⟨?_, ?_, ?_, ?_, ?_, ?_⟩
  · intro llm idea hfail out h
    rw [invokeD_pure_eq] at h
    rw [if_neg (by rw [hfail]; decide)] at h
    simp only [Except.ok.injEq, Option.some.injEq] at h
    subst h
    exact ⟨rfl, rfl, rfl⟩
  · intro llm topic hfail out h
    rw [invokeC_pure_eq] at h
    rw [if_neg (by rw [hfail]; decide)] at h
    simp only [Except.ok.injEq, Option.some.injEq] at h
    subst h
    exact ⟨rfl, rfl, rfl⟩
  · intro d
    exact (List.suffix_append _ _).isInfix
  · intro i
    exact (List.suffix_append _ _).isInfix
  · intro d
    exact ⟨_, _, rfl⟩
  · intro i
    exact ⟨_, _, rfl⟩

/-- Witness for C5: a fail-path run of both variants under a client whose
responses never contain "pass". -/
theorem claim5_witness :
    ApiDesign.classify
      (failingClient (ApiDesign.reviewPrompt (failingClient (ApiDesign.generatePrompt wIdea)))) = failTok ∧
    CodeGen.classify
      (failingClient (CodeGen.reviewPrompt (failingClient (CodeGen.generatePrompt wIdea)))) = failTok ∧
    (wOutD.final.draft_design = some (failingClient (ApiDesign.generatePrompt wIdea)) ∧
      wOutD.final.improved_design =
        some (failingClient (ApiDesign.improvePrompt (failingClient (ApiDesign.generatePrompt wIdea)))) ∧
      wOutD.final.final_doc =
        some (failingClient (ApiDesign.finalPrompt
          (failingClient (ApiDesign.improvePrompt (failingClient (ApiDesign.generatePrompt wIdea))))))) ∧
    (wOutC.final.code = some (failingClient (CodeGen.generatePrompt wIdea)) ∧
      wOutC.final.improved_code =
        some (failingClient (CodeGen.improvePrompt (failingClient (CodeGen.generatePrompt wIdea)))) ∧
      wOutC.final.final_code =
        some (stripWs (failingClient (CodeGen.managerPrompt
          (failingClient (CodeGen.improvePrompt (failingClient (CodeGen.generatePrompt wIdea)))))))) :=
  ⟨by decide, by decide,
   claim5_improve_finalize_dataflow.1 failingClient wIdea (by decide) wOutD rfl,
   claim5_improve_finalize_dataflow.2.1 failingClient wIdea (by decide) wOutC rfl⟩

/-- C6: every classifier output is one of exactly the two verdict strings
`"Pass"` and `"Fail"`, and both are keys of the conditional edge map, so
routing always finds a next node. -/
theorem claim6_verdict_routing_total : ∀ t : Str,
    (ApiDesign.classify t = passTok ∨ ApiDesign.classify t = failTok) ∧
    (CodeGen.classify t = passTok ∨ CodeGen.classify t = failTok) ∧
    (List.lookup (ApiDesign.classify t) ApiDesign.condEdges).isSome = true ∧
    (List.lookup (CodeGen.classify t) CodeGen.condEdges).isSome = true ∧
    List.lookup failTok ApiDesign.condEdges = some ApiDesign.NextNode.improve_node ∧
    List.lookup passTok ApiDesign.condEdges = some ApiDesign.NextNode.end_node ∧
    List.lookup failTok CodeGen.condEdges = some CodeGen.NextNode.improve_node ∧
    List.lookup passTok CodeGen.condEdges = some CodeGen.NextNode.end_node := by
  intro t
  refine ⟨classifyD_total t, classifyC_total t, ?_, ?_, by decide, by decide, by decide, by decide⟩
  · rcases classifyD_total t with h | h <;> rw [h] <;> decide
  · rcases classifyC_total t with h | h <;> rw [h] <;> decide

/-- C7: if any stage's completion call raises a `ServiceError` (modelled
as `Except.error e`), nothing catches it: the invocation returns exactly
that error and no pipeline state, whichever stage failed (both
variants). -/
theorem claim7_service_error_propagates :
    (∀ (ε : Type) (llm : Str → Except ε Str) (idea : Str) (e : ε),
      llm (ApiDesign.generatePrompt idea) = Except.error e →
      ApiDesign.invoke llm idea = Except.error e) ∧
    (∀ (ε : Type) (llm : Str → Except ε Str) (idea : Str) (e : ε) (d : Str),
      llm (ApiDesign.generatePrompt idea) = Except.ok d →
      llm (ApiDesign.reviewPrompt d) = Except.error e →
      ApiDesign.invoke llm idea = Except.error e) ∧
    (∀ (ε : Type) (llm : Str → Except ε Str) (idea : Str) (e : ε) (d r : Str),
      llm (ApiDesign.generatePrompt idea) = Except.ok d →
      llm (ApiDesign.reviewPrompt d) = Except.ok r →
      ApiDesign.classify r = failTok →
      llm (ApiDesign.improvePrompt d) = Except.error e →
      ApiDesign.invoke llm idea = Except.error e) ∧
    (∀ (ε : Type) (llm : Str → Except ε Str) (idea : Str) (e : ε) (d r i : Str),
      llm (ApiDesign.generatePrompt idea) = Except.ok d →
      llm (ApiDesign.reviewPrompt d) = Except.ok r →
      ApiDesign.classify r = failTok →
      llm (ApiDesign.improvePrompt d) = Except.ok i →
      llm (ApiDesign.finalPrompt i) = Except.error e →
      ApiDesign.invoke llm idea = Except.error e) ∧
    (∀ (ε : Type) (llm : Str → Except ε Str) (topic : Str) (e : ε),
      llm (CodeGen.generatePrompt topic) = Except.error e →
      CodeGen.invoke llm topic = Except.error e) ∧
    (∀ (ε : Type) (llm : Str → Except ε Str) (topic : Str) (e : ε) (d : Str),
      llm (CodeGen.generatePrompt topic) = Except.ok d →
      llm (CodeGen.reviewPrompt d) = Except.error e →
      CodeGen.invoke llm topic = Except.error e) ∧
    (∀ (ε : Type) (llm : Str → Except ε Str) (topic : Str) (e : ε) (d r : Str),
      llm (CodeGen.generatePrompt topic) = Except.ok d →
      llm (CodeGen.reviewPrompt d) = Except.ok r →
      CodeGen.classify r = failTok →
      llm (CodeGen.improvePrompt d) = Except.error e →
      CodeGen.invoke llm topic = Except.error e) ∧
    (∀ (ε : Type) (llm : Str → Except ε Str) (topic : Str) (e : ε) (d r i : Str),
      llm (CodeGen.generatePrompt topic) = Except.ok d →
      llm (CodeGen.reviewPrompt d) = Except.ok r →
      CodeGen.classify r = failTok →
      llm (CodeGen.improvePrompt d) = Except.ok i →
      llm (CodeGen.managerPrompt i) = Except.error e →
      CodeGen.invoke llm topic = Except.error e) := by
  refine ⟨?_, ?_, ?_, ?_, ?_, ?_, ?_, ?_⟩
  · intro ε llm idea e h1
    simp only [ApiDesign.invoke, ApiDesign.generate_api_design, ApiDesign.init,
      Option.getD_some, h1]
  · intro ε llm idea e d h1 h2
    simp only [ApiDesign.invoke, ApiDesign.generate_api_design, ApiDesign.peer_review_design,
      ApiDesign.init, Option.getD_some, h1, h2]
  · intro ε llm idea e d r h1 h2 hfail h3
    simp only [ApiDesign.invoke, ApiDesign.generate_api_design, ApiDesign.peer_review_design,
      ApiDesign.improve_design, ApiDesign.init, Option.getD_some, h1, h2, hfail,
      lookup_fail_D, h3]
  · intro ε llm idea e d r i h1 h2 hfail h3 h4
    simp only [ApiDesign.invoke, ApiDesign.generate_api_design, ApiDesign.peer_review_design,
      ApiDesign.improve_design, ApiDesign.manager_review, ApiDesign.init,
      Option.getD_some, h1, h2, hfail, lookup_fail_D, h3, h4]
  · intro ε llm topic e h1
    simp only [CodeGen.invoke, CodeGen.generate_code, CodeGen.init, Option.getD_some, h1]
  · intro ε llm topic e d h1 h2
    simp only [CodeGen.invoke, CodeGen.generate_code, CodeGen.peer_review,
      CodeGen.init, Option.getD_some, h1, h2]
  · intro ε llm topic e d r h1 h2 hfail h3
    simp only [CodeGen.invoke, CodeGen.generate_code, CodeGen.peer_review,
      CodeGen.improve_code, CodeGen.init, Option.getD_some, h1, h2, hfail,
      lookup_fail_C, h3]
  · intro ε llm topic e d r i h1 h2 hfail h3 h4
    simp only [CodeGen.invoke, CodeGen.generate_code, CodeGen.peer_review,
      CodeGen.improve_code, CodeGen.manager_review, CodeGen.init,
      Option.getD_some, h1, h2, hfail, lookup_fail_C, h3, h4]

/-- Witness for C7: a client that always raises error 7 makes both
invocations return exactly that error. -/
theorem claim7_witness :
    errClient (ApiDesign.generatePrompt wIdea) = Except.error 7 ∧
    ApiDesign.invoke errClient wIdea = Except.error 7 ∧
    CodeGen.invoke errClient wIdea = Except.error 7 :=
  ⟨rfl, claim7_service_error_propagates.1 Nat errClient wIdea 7 rfl,
   claim7_service_error_propagates.2.2.2.2.1 Nat errClient wIdea 7 rfl⟩

/-- C8: a line whose trimmed text contains a triple-quote marker not as a
leading substring is never detected: the toggle is unchanged and the line
is classified by the remaining rules only. -/
theorem claim8_mid_marker_undetected : ∀ (b : Bool) (l : Str),
    (tqMark1 <:+: stripWs l ∨ tqMark2 <:+: stripWs l) →
    startsTq (stripWs l) = false →
    (classifyLine b l).2 = b ∧
    classifyLine b l =
      (if b then (LineKind.stringKind, b)
       else if ['#'].isPrefixOf (stripWs l) then (LineKind.commentKind, b)
       else (LineKind.codeKind, b)) := by
  intro b l _ h
  cases b
  · by_cases hh : ['#'].isPrefixOf (stripWs l) = true
    · simp [classifyLine, h, hh]
    · simp [classifyLine, h, hh]
  · simp [classifyLine, h]

/-- Witness for C8: `x = """ y` contains a marker mid-line, toggles
nothing and is classified as plain code. -/
theorem claim8_witness :
    (tqMark1 <:+: stripWs midMarkerLine ∨ tqMark2 <:+: stripWs midMarkerLine) ∧
    startsTq (stripWs midMarkerLine) = false ∧
    ((classifyLine false midMarkerLine).2 = false ∧
      classifyLine false midMarkerLine = (LineKind.codeKind, false)) :=
  ⟨Or.inl (by decide), by decide,
   claim8_mid_marker_undetected false midMarkerLine (Or.inl (by decide)) (by decide)⟩

/-- C9: the coloring transform emits exactly one output line per input
line, each output line is the input line wrapped in a 5-char color marker
and the 4-char reset marker, and stripping those markers recovers the
input lines unchanged. -/
theorem claim9_line_preservation :
    (∀ (b : Bool) (lines : List Str),
      List.Forall₂ (fun l o => o = CYAN ++ l ++ RESET ∨ o = GREEN ++ l ++ RESET)
        lines (colorizeLines b lines) ∧
      (colorizeLines b lines).length = lines.length ∧
      (colorizeLines b lines).map unwrapLine = lines) ∧
    (∀ code : Str,
      colorize_python_code code =
        List.intercalate ['\n'] (colorizeLines false (splitlines code))) := by
  constructor
  · intro b lines
    induction lines generalizing b with
    | nil => simp [colorizeLines]
    | cons l ls ih =>
      refine ⟨?_, ?_, ?_⟩
      · simp only [colorizeLines]
        exact List.Forall₂.cons (wrapLine_or _ _) (ih _).1
      · simp [colorizeLines, (ih _).2.1]
      · simp [colorizeLines, unwrap_wrapLine, (ih _).2.2]
  · intro code
    rfl

/-- C10: `clean_python_code` strips backticks from both ends, then removes
every occurrence of the substring "python" anywhere in the text (also
inside identifiers), then trims whitespace. -/
theorem claim10_clean_code_global_removal :
    (∀ raw : Str, clean_python_code raw = stripWs (removePython (stripChar '\x60' raw))) ∧
    (∀ b : Str, removePython (pythonPat ++ b) = removePython b) ∧
    clean_python_code "x = my_python_helper(2)".toList = "x = my__helper(2)".toList ∧
    clean_python_code ("\x60\x60\x60python\ndef f(x):\n    return x\n\x60\x60\x60".toList) =
      "def f(x):\n    return x".toList :=
  ⟨fun _ => rfl, removePythonHead, by decide, by decide⟩
